import Mathlib

/-!
# aws_connect_queue_quick_connect: a shallow embedding

Embedding of `internal/service/connect/aws_connect_queue_quick_connect.go`:
the resource data record, `Create`, `Read` and the listing loop
`ListAllQueueQuickConnectIdsWithContext`.

Conventions of the embedding

* a Go `*string` is an `Option String` (`nil` is `none`);
* a Go slice is a `List` (a nil slice and an empty slice are both `[]`);
* the Go result pair `([]*string, error)` is a pair of a list and an
  `Option GoError` (`none` is the nil error); the result of a remote call, whose
  value the callers never read when the error is non-nil, is an `Except`;
* the remote service client `conn` is a transition system over an abstract
  remote state `σ`: every call takes the current state and a request and gives
  a result and the next state;
* the unbounded `for` loop takes a fuel argument counting the iterations it may
  still run; `none` means the loop is still running when the fuel is spent.
-/

namespace Connect

/-! ## Values supplied by the environment -/

/-- A Go `error` value; `Error` gives its text. -/
structure GoError where
  text : String
  deriving DecidableEq, Repr

/-- The method `err.Error()`. -/
def GoError.Error (e : GoError) : String := e.text

/-- The framework's `types.String`: null, unknown, or a known value. -/
inductive TfString where
  | null
  | unknown
  | value (s : String)
  deriving DecidableEq, Repr

/-- The constructor `types.StringValue`. -/
def TfString.StringValue (s : String) : TfString := .value s

/-- The method `ValueString`: the known value, or `""` for null and unknown. -/
def TfString.ValueString : TfString → String
  | .value s => s
  | _ => ""

/-- The method `String` of `types.String`: a printable form. The quoting of a
known value (Go's `%q`) is taken as a parameter. -/
def TfString.String (quote : String → String) : TfString → String
  | .null => "<null>"
  | .unknown => "<unknown>"
  | .value s => quote s

/-- Severity of a framework diagnostic. -/
inductive Severity where
  | Error
  | Warning
  deriving DecidableEq, Repr

/-- A framework diagnostic: severity, summary, detail. -/
structure Diagnostic where
  severity : Severity
  summary : String
  detail : String
  deriving DecidableEq, Repr

/-- The framework's `diag.Diagnostics`. -/
abbrev Diagnostics := List Diagnostic

/-- The method `Diagnostics.Append`: adds each diagnostic that is not already
present. -/
def Diagnostics.Append (ds : Diagnostics) (new : Diagnostics) : Diagnostics :=
  new.foldl (fun acc d => if d ∈ acc then acc else acc ++ [d]) ds

/-- The method `Diagnostics.AddError`: appends an error diagnostic. -/
def Diagnostics.AddError (ds : Diagnostics) (summary detail : String) : Diagnostics :=
  Diagnostics.Append ds [⟨.Error, summary, detail⟩]

/-- The method `Diagnostics.HasError`. -/
def Diagnostics.HasError (ds : Diagnostics) : Bool :=
  ds.any (fun d => decide (d.severity = .Error))

/-- What `Create` and `Read` use of the packages `create` and `names` and of
Go's string quoting; none of it is defined in the file embedded here, so it is
a parameter of the model. -/
structure CreatePkg where
  /-- The function `create.ProblemStandardMessage(service, action, resource, id, err)`. -/
  ProblemStandardMessage : String → String → String → String → GoError → String
  /-- The constant `names.Connect`. -/
  Connect : String
  /-- The constant `create.ErrActionCreating`. -/
  ErrActionCreating : String
  /-- The constant `create.ErrActionReading`. -/
  ErrActionReading : String
  /-- Go's `%q` quoting, used by `types.String.String`. -/
  quote : String → String

/-! ## The remote service -/

/-- The SDK's `connect.AssociateQueueQuickConnectsInput`. -/
structure AssociateQueueQuickConnectsInput where
  InstanceId : Option String
  QueueId : Option String
  QuickConnectIds : List (Option String)
  deriving DecidableEq, Repr

/-- The SDK's `connect.ListQueueQuickConnectsInput`. -/
structure ListQueueQuickConnectsInput where
  InstanceId : Option String
  QueueId : Option String
  MaxResults : Option Nat
  NextToken : Option String
  deriving DecidableEq, Repr

/-- The SDK's `connect.QuickConnectSummary` (the fields of string type). -/
structure QuickConnectSummary where
  Arn : Option String
  Id : Option String
  Name : Option String
  QuickConnectType : Option String
  deriving DecidableEq, Repr

/-- The SDK's `connect.ListQueueQuickConnectsOutput`. -/
structure ListQueueQuickConnectsOutput where
  NextToken : Option String
  QuickConnectSummaryList : List QuickConnectSummary
  deriving DecidableEq, Repr

/-- The result of one listing call: an error or a response. -/
abbrev ListResult := Except GoError ListQueueQuickConnectsOutput

/-- The service client `*connect.Connect` over a remote state `σ`. -/
structure Conn (σ : Type) where
  /-- The call `conn.AssociateQueueQuickConnectsWithContext(ctx, in)`: the error
  (`none` for nil) and the next remote state; the output value is discarded by
  the caller. -/
  AssociateQueueQuickConnectsWithContext :
    σ → AssociateQueueQuickConnectsInput → Option GoError × σ
  /-- The call `conn.ListQueueQuickConnectsWithContext(ctx, in)`. -/
  ListQueueQuickConnectsWithContext :
    σ → ListQueueQuickConnectsInput → ListResult × σ

/-! ## The resource -/

/-- The constant `ResNamequeueQuickConnectAssociation`. -/
def ResNamequeueQuickConnectAssociation : String := "queue Quick Connect Association"

/-- The struct `resourceQueueQuickConnectAssociationData`. -/
structure resourceQueueQuickConnectAssociationData where
  ID : TfString
  InstanceId : TfString
  QueueId : TfString
  QuickConnectIds : List (Option String)
  deriving DecidableEq, Repr

/-- The zero value of `resourceQueueQuickConnectAssociationData`, what a
`var` declaration gives. -/
def resourceQueueQuickConnectAssociationData.zero : resourceQueueQuickConnectAssociationData :=
  ⟨.null, .null, .null, []⟩

/-- The framework's `tfsdk.Plan` and `tfsdk.State`, seen through `Get` into the
data struct: a value that converts to the struct, or one whose conversion
reports the given diagnostics. -/
inductive Stored where
  | object (d : resourceQueueQuickConnectAssociationData)
  | unconvertible (ds : Diagnostics)
  deriving DecidableEq, Repr

/-- The method `Get(ctx, &target)` of `tfsdk.Plan` and `tfsdk.State`: the
target after the call (left at its zero value when the conversion fails) and
the diagnostics. -/
def Stored.Get : Stored → resourceQueueQuickConnectAssociationData × Diagnostics
  | .object d => (d, [])
  | .unconvertible ds => (resourceQueueQuickConnectAssociationData.zero, ds)

/-- The method `State.Set(ctx, value)`: the new state and the diagnostics; a
value of the data struct always converts. -/
def Stored.Set (_ : Stored) (d : resourceQueueQuickConnectAssociationData) :
    Stored × Diagnostics :=
  (.object d, [])

/-- The framework's `resource.CreateRequest` (the field used). -/
structure CreateRequest where
  Plan : Stored
  deriving DecidableEq, Repr

/-- The framework's `resource.CreateResponse`. -/
structure CreateResponse where
  State : Stored
  Diagnostics : Diagnostics
  deriving DecidableEq, Repr

/-- The framework's `resource.ReadRequest` (the field used). -/
structure ReadRequest where
  State : Stored
  deriving DecidableEq, Repr

/-- The framework's `resource.ReadResponse`. -/
structure ReadResponse where
  State : Stored
  Diagnostics : Diagnostics
  deriving DecidableEq, Repr

/-- The identifier expression of `Create`,
`fmt.Sprintf("%v:%v", plan.InstanceId.ValueString(), plan.QueueId.ValueString())`. -/
def identifier (plan : resourceQueueQuickConnectAssociationData) : String :=
  plan.InstanceId.ValueString ++ ":" ++ plan.QueueId.ValueString

/-- The request `Create` builds from the plan. -/
def associateInput (plan : resourceQueueQuickConnectAssociationData) :
    AssociateQueueQuickConnectsInput :=
  { InstanceId := some plan.InstanceId.ValueString
    QueueId := some plan.QueueId.ValueString
    QuickConnectIds := plan.QuickConnectIds }

/-- The method `Create`: the response after the call and the next remote
state. -/
def Create {σ : Type} (pkg : CreatePkg) (conn : Conn σ) (s : σ)
    (req : CreateRequest) (resp : CreateResponse) : CreateResponse × σ :=
  let got := req.Plan.Get
  let plan := got.1
  let resp := { resp with Diagnostics := Diagnostics.Append resp.Diagnostics got.2 }
  if Diagnostics.HasError resp.Diagnostics then (resp, s)
  else
    let called := conn.AssociateQueueQuickConnectsWithContext s (associateInput plan)
    let resp :=
      match called.1 with
      | some err =>
        { resp with
          Diagnostics := Diagnostics.AddError resp.Diagnostics
            (pkg.ProblemStandardMessage pkg.Connect pkg.ErrActionCreating
              ResNamequeueQuickConnectAssociation (plan.InstanceId.String pkg.quote) err)
            err.Error }
      | none => resp
    let plan := { plan with ID := TfString.StringValue (identifier plan) }
    let set := resp.State.Set plan
    ({ State := set.1, Diagnostics := Diagnostics.Append resp.Diagnostics set.2 }, called.2)

/-- The state of the loop of `ListAllQueueQuickConnectIdsWithContext` between
two iterations: the remote state and the local `quickConnects`. -/
structure WalkState (σ : Type) where
  remote : σ
  quickConnects : List (Option String)

/-- The outcome of `ListAllQueueQuickConnectIdsWithContext`: the returned pair
`([]*string, error)` and the remote state it leaves. -/
abbrev WalkResult (σ : Type) := (List (Option String) × Option GoError) × σ

/-- One iteration of the `for` loop: the call, the error return, the inner
`range` loop appending each summary's `Id`, and the `NextToken == nil` test.
`Sum.inl` is a return, `Sum.inr` the state at the next iteration. -/
def walkIter {σ : Type} (conn : Conn σ) (inp : ListQueueQuickConnectsInput)
    (st : WalkState σ) : WalkResult σ ⊕ WalkState σ :=
  match conn.ListQueueQuickConnectsWithContext st.remote inp with
  | (.error err, s) => .inl (([], some err), s)
  | (.ok response, s) =>
    let quickConnects :=
      response.QuickConnectSummaryList.foldl (fun acc quickConnect => acc ++ [quickConnect.Id])
        st.quickConnects
    match response.NextToken with
    | none => .inl ((quickConnects, none), s)
    | some _ => .inr ⟨s, quickConnects⟩

/-- The `for` loop run for at most `fuel` iterations. -/
def walkLoop {σ : Type} (conn : Conn σ) (inp : ListQueueQuickConnectsInput) :
    Nat → WalkState σ → Option (WalkResult σ)
  | 0, _ => none
  | fuel + 1, st =>
    match walkIter conn inp st with
    | .inl r => some r
    | .inr st => walkLoop conn inp fuel st

/-- The function `ListAllQueueQuickConnectIdsWithContext`: `quickConnects`
starts empty, then the loop. -/
def ListAllQueueQuickConnectIdsWithContext {σ : Type} (conn : Conn σ) (fuel : Nat) (s : σ)
    (inp : ListQueueQuickConnectsInput) : Option (WalkResult σ) :=
  walkLoop conn inp fuel ⟨s, []⟩

/-- The request `Read` builds from the state. -/
def listInput (state : resourceQueueQuickConnectAssociationData) : ListQueueQuickConnectsInput :=
  { InstanceId := some state.InstanceId.ValueString
    QueueId := some state.QueueId.ValueString
    MaxResults := none
    NextToken := none }

/-- The method `Read`: the response after the call and the next remote state,
or `none` when the listing loop is still running after `fuel` iterations. -/
def Read {σ : Type} (pkg : CreatePkg) (conn : Conn σ) (fuel : Nat) (s : σ)
    (req : ReadRequest) (resp : ReadResponse) : Option (ReadResponse × σ) :=
  let got := req.State.Get
  let state := got.1
  let resp := { resp with Diagnostics := Diagnostics.Append resp.Diagnostics got.2 }
  if Diagnostics.HasError resp.Diagnostics then some (resp, s)
  else
    match ListAllQueueQuickConnectIdsWithContext conn fuel s (listInput state) with
    | none => none
    | some ((_, some err), s) =>
      some ({ resp with
              Diagnostics := Diagnostics.AddError resp.Diagnostics
                (pkg.ProblemStandardMessage pkg.Connect pkg.ErrActionReading
                  ResNamequeueQuickConnectAssociation (state.InstanceId.String pkg.quote) err)
                err.Error }, s)
    | some ((quickConnectIds, none), s) =>
      let state := { state with QuickConnectIds := state.QuickConnectIds ++ quickConnectIds }
      let set := resp.State.Set state
      some ({ State := set.1, Diagnostics := Diagnostics.Append resp.Diagnostics set.2 }, s)

/-! ## Remotes and observations used to state the properties -/

/-- The ids of one response, in response order. -/
def pageIds (response : ListQueueQuickConnectsOutput) : List (Option String) :=
  response.QuickConnectSummaryList.map (fun quickConnect => quickConnect.Id)

/-- `feeds conn inp s rs s'`: issuing `rs.length` successive listing calls with
the request `inp`, starting from the remote state `s`, gives the results `rs`
in this order and leaves the remote in state `s'`. -/
def feeds {σ : Type} (conn : Conn σ) (inp : ListQueueQuickConnectsInput) :
    σ → List ListResult → σ → Prop
  | s, [], s' => s = s'
  | s, r :: rs, s' =>
    (conn.ListQueueQuickConnectsWithContext s inp).1 = r ∧
      feeds conn inp (conn.ListQueueQuickConnectsWithContext s inp).2 rs s'

/-- The state after at most `n` iterations of the loop: the return, if the loop
has returned by then, and otherwise the state before iteration `n`. -/
def walkRun {σ : Type} (conn : Conn σ) (inp : ListQueueQuickConnectsInput) :
    Nat → WalkState σ → WalkResult σ ⊕ WalkState σ
  | 0, st => .inr st
  | n + 1, st =>
    match walkIter conn inp st with
    | .inl r => .inl r
    | .inr st => walkRun conn inp n st

/-- A remote that answers the listing calls from a fixed script, one entry per
call whatever the request; once the script is used up a call fails. The remote
state is the part of the script not yet served, so the number of calls made is
the number of entries consumed. -/
def scriptConn : Conn (List ListResult) where
  AssociateQueueQuickConnectsWithContext := fun s _ => (none, s)
  ListQueueQuickConnectsWithContext := fun s _ =>
    match s with
    | [] => (.error ⟨"script exhausted"⟩, [])
    | r :: rest => (r, rest)

/-- A remote that refuses every call with the error `e`. -/
def refusingConn (e : GoError) : Conn Unit where
  AssociateQueueQuickConnectsWithContext := fun s _ => (some e, s)
  ListQueueQuickConnectsWithContext := fun s _ => (.error e, s)

/-- A remote without state: the result of a listing call depends only on the
request. -/
def statelessConn (f : ListQueueQuickConnectsInput → ListResult) : Conn Unit where
  AssociateQueueQuickConnectsWithContext := fun s _ => (none, s)
  ListQueueQuickConnectsWithContext := fun s inp => (f inp, s)

/-- The answer of a remote that holds a paginated listing: `table` gives, for
the continuation token of the request (`none` asks for the first page), the
page served; a token not in the table is refused. -/
def pagedAnswer (table : List (Option String × ListQueueQuickConnectsOutput))
    (inp : ListQueueQuickConnectsInput) : ListResult :=
  match table.lookup inp.NextToken with
  | some response => .ok response
  | none => .error ⟨"InvalidParameterException"⟩

/-- A remote that holds a paginated listing and serves the page the request's
continuation token asks for. -/
def pagedConn (table : List (Option String × ListQueueQuickConnectsOutput)) : Conn Unit :=
  statelessConn (pagedAnswer table)

/-- The remote `conn` with a log of the listing requests it has received, in
order of arrival. -/
def record {σ : Type} (conn : Conn σ) : Conn (σ × List ListQueueQuickConnectsInput) where
  AssociateQueueQuickConnectsWithContext := fun s inp =>
    ((conn.AssociateQueueQuickConnectsWithContext s.1 inp).1,
      ((conn.AssociateQueueQuickConnectsWithContext s.1 inp).2, s.2))
  ListQueueQuickConnectsWithContext := fun s inp =>
    ((conn.ListQueueQuickConnectsWithContext s.1 inp).1,
      ((conn.ListQueueQuickConnectsWithContext s.1 inp).2, s.2 ++ [inp]))

/-- The request log of a recorded remote after `walkRun`. -/
def loggedCalls {σ : Type} :
    WalkResult (σ × List ListQueueQuickConnectsInput) ⊕
      WalkState (σ × List ListQueueQuickConnectsInput) →
    List ListQueueQuickConnectsInput
  | .inl r => r.2.2
  | .inr st => st.remote.2

/-- Modelled from the spec: the split of an identifier at its first colon
(spec §8 "splitting the identifier on the first colon recovers both", and the
contract for imports in §6). The source has no function that performs it:
`ImportState` passes the identifier through unchanged. `none` when there is no
colon. -/
def splitAtFirstColon (id : String) : Option (String × String) :=
  match id.data.span (fun c => c != ':') with
  | (_, []) => none
  | (before, _ :: after) => some (⟨before⟩, ⟨after⟩)

/-- A response with the given ids and continuation token. -/
def page (ids : List String) (next : Option String) : ListQueueQuickConnectsOutput :=
  { NextToken := next
    QuickConnectSummaryList := ids.map (fun i => ⟨none, some i, none, none⟩) }

/-- A package environment for concrete evaluations. -/
def samplePkg : CreatePkg where
  ProblemStandardMessage := fun service action resource id err =>
    action ++ " " ++ service ++ " " ++ resource ++ " (" ++ id ++ "): " ++ err.Error
  Connect := "connect"
  ErrActionCreating := "creating"
  ErrActionReading := "reading"
  quote := fun s => "\"" ++ s ++ "\""

/-! ## Lemmas on the listing loop -/

theorem foldl_append_ids (l : List QuickConnectSummary) (acc : List (Option String)) :
    l.foldl (fun acc quickConnect => acc ++ [quickConnect.Id]) acc
      = acc ++ l.map (fun quickConnect => quickConnect.Id) := by
  induction l generalizing acc with
  | nil => simp
  | cons q l ih => simp [ih]

theorem walkIter_error {σ : Type} (conn : Conn σ) (inp : ListQueueQuickConnectsInput)
    (st : WalkState σ) (e : GoError)
    (h : (conn.ListQueueQuickConnectsWithContext st.remote inp).1 = .error e) :
    walkIter conn inp st
      = .inl (([], some e), (conn.ListQueueQuickConnectsWithContext st.remote inp).2) := by
  unfold walkIter
  rcases hc : conn.ListQueueQuickConnectsWithContext st.remote inp with ⟨r, s⟩
  rw [hc] at h
  simp only at h
  subst h
  rfl

theorem walkIter_last {σ : Type} (conn : Conn σ) (inp : ListQueueQuickConnectsInput)
    (st : WalkState σ) (response : ListQueueQuickConnectsOutput)
    (h : (conn.ListQueueQuickConnectsWithContext st.remote inp).1 = .ok response)
    (htok : response.NextToken = none) :
    walkIter conn inp st
      = .inl ((st.quickConnects ++ pageIds response, none),
          (conn.ListQueueQuickConnectsWithContext st.remote inp).2) := by
  unfold walkIter
  rcases hc : conn.ListQueueQuickConnectsWithContext st.remote inp with ⟨r, s⟩
  rw [hc] at h
  simp only at h
  subst h
  simp [htok, foldl_append_ids, pageIds]

theorem walkIter_more {σ : Type} (conn : Conn σ) (inp : ListQueueQuickConnectsInput)
    (st : WalkState σ) (response : ListQueueQuickConnectsOutput)
    (h : (conn.ListQueueQuickConnectsWithContext st.remote inp).1 = .ok response)
    (htok : response.NextToken ≠ none) :
    walkIter conn inp st
      = .inr ⟨(conn.ListQueueQuickConnectsWithContext st.remote inp).2,
          st.quickConnects ++ pageIds response⟩ := by
  unfold walkIter
  rcases hc : conn.ListQueueQuickConnectsWithContext st.remote inp with ⟨r, s⟩
  rw [hc] at h
  simp only at h
  subst h
  cases ht : response.NextToken with
  | none => exact absurd ht htok
  | some t => simp only [ht, foldl_append_ids, pageIds]

theorem walkLoop_pages {σ : Type} (conn : Conn σ) (inp : ListQueueQuickConnectsInput)
    (last : ListQueueQuickConnectsOutput) (hlast : last.NextToken = none)
    (pages : List ListQueueQuickConnectsOutput)
    (htok : ∀ p ∈ pages, p.NextToken ≠ none) :
    ∀ (s s' : σ) (acc : List (Option String)) (fuel : Nat),
      feeds conn inp s (pages.map Except.ok ++ [Except.ok last]) s' →
      pages.length < fuel →
      walkLoop conn inp fuel ⟨s, acc⟩
        = some ((acc ++ ((pages ++ [last]).map pageIds).flatten, none), s') := by
  induction pages with
  | nil =>
    intro s s' acc fuel hf hfuel
    obtain ⟨k, rfl⟩ : ∃ k, fuel = k + 1 := ⟨fuel - 1, by simp at hfuel; omega⟩
    simp only [List.map_nil, List.nil_append, feeds] at hf
    obtain ⟨h1, h2⟩ := hf
    have hi := walkIter_last conn inp ⟨s, acc⟩ last h1 hlast
    simp only [walkLoop, hi, h2]
    simp
  | cons p pages ih =>
    intro s s' acc fuel hf hfuel
    obtain ⟨k, rfl⟩ : ∃ k, fuel = k + 1 := ⟨fuel - 1, by simp at hfuel; omega⟩
    simp only [List.map_cons, List.cons_append, feeds] at hf
    obtain ⟨h1, h2⟩ := hf
    have hi := walkIter_more conn inp ⟨s, acc⟩ p h1 (htok p (List.mem_cons_self _ _))
    have hrec := ih (fun q hq => htok q (List.mem_cons_of_mem _ hq)) _ s' (acc ++ pageIds p) k h2
      (by simp at hfuel; omega)
    simp only [walkLoop, hi, hrec]
    simp

theorem walkLoop_fail {σ : Type} (conn : Conn σ) (inp : ListQueueQuickConnectsInput)
    (e : GoError) (pages : List ListQueueQuickConnectsOutput)
    (htok : ∀ p ∈ pages, p.NextToken ≠ none) :
    ∀ (s s' : σ) (acc : List (Option String)) (fuel : Nat),
      feeds conn inp s (pages.map Except.ok ++ [Except.error e]) s' →
      pages.length < fuel →
      walkLoop conn inp fuel ⟨s, acc⟩ = some (([], some e), s') := by
  induction pages with
  | nil =>
    intro s s' acc fuel hf hfuel
    obtain ⟨k, rfl⟩ : ∃ k, fuel = k + 1 := ⟨fuel - 1, by simp at hfuel; omega⟩
    simp only [List.map_nil, List.nil_append, feeds] at hf
    obtain ⟨h1, h2⟩ := hf
    have hi := walkIter_error conn inp ⟨s, acc⟩ e h1
    simp only [walkLoop, hi, h2]
  | cons p pages ih =>
    intro s s' acc fuel hf hfuel
    obtain ⟨k, rfl⟩ : ∃ k, fuel = k + 1 := ⟨fuel - 1, by simp at hfuel; omega⟩
    simp only [List.map_cons, List.cons_append, feeds] at hf
    obtain ⟨h1, h2⟩ := hf
    have hi := walkIter_more conn inp ⟨s, acc⟩ p h1 (htok p (List.mem_cons_self _ _))
    have hrec := ih (fun q hq => htok q (List.mem_cons_of_mem _ hq)) _ s' (acc ++ pageIds p) k h2
      (by simp at hfuel; omega)
    simp only [walkLoop, hi, hrec]

theorem walkLoop_stuck {σ : Type} (conn : Conn σ) (inp : ListQueueQuickConnectsInput)
    (h : ∀ s, ∃ response, (conn.ListQueueQuickConnectsWithContext s inp).1 = .ok response ∧
      response.NextToken ≠ none) :
    ∀ (fuel : Nat) (st : WalkState σ), walkLoop conn inp fuel st = none := by
  intro fuel
  induction fuel with
  | zero => intro st; rfl
  | succ n ih =>
    intro st
    obtain ⟨response, h1, h2⟩ := h st.remote
    simp only [walkLoop, walkIter_more conn inp st response h1 h2, ih]

theorem walkRun_logged {σ : Type} (conn : Conn σ) (inp : ListQueueQuickConnectsInput) :
    ∀ (n : Nat) (st : WalkState (σ × List ListQueueQuickConnectsInput)),
      ∃ k, k ≤ n ∧
        loggedCalls (walkRun (record conn) inp n st) = st.remote.2 ++ List.replicate k inp := by
  intro n
  induction n with
  | zero => intro st; exact ⟨0, le_refl _, by simp [walkRun, loggedCalls]⟩
  | succ n ih =>
    intro st
    rcases hr : (conn.ListQueueQuickConnectsWithContext st.remote.1 inp).1 with e | response
    · have hi := walkIter_error (record conn) inp st e (by simpa [record] using hr)
      refine ⟨1, by omega, ?_⟩
      simp only [walkRun, hi, loggedCalls]
      simp [record]
    · cases ht : response.NextToken with
      | none =>
        have hi := walkIter_last (record conn) inp st response (by simpa [record] using hr) ht
        refine ⟨1, by omega, ?_⟩
        simp only [walkRun, hi, loggedCalls]
        simp [record]
      | some t =>
        have hi := walkIter_more (record conn) inp st response (by simpa [record] using hr)
          (by simp [ht])
        obtain ⟨k, hk, hlog⟩ := ih ⟨((record conn).ListQueueQuickConnectsWithContext st.remote inp).2,
          st.quickConnects ++ pageIds response⟩
        refine ⟨k + 1, by omega, ?_⟩
        simp only [walkRun, hi, hlog]
        simp [record, List.replicate_succ]

theorem walkLoop_eq_walkRun {σ : Type} (conn : Conn σ) (inp : ListQueueQuickConnectsInput) :
    ∀ (fuel : Nat) (st : WalkState σ),
      walkLoop conn inp fuel st = (walkRun conn inp fuel st).getLeft? := by
  intro fuel
  induction fuel with
  | zero => intro st; rfl
  | succ n ih =>
    intro st
    simp only [walkLoop, walkRun]
    cases walkIter conn inp st with
    | inl r => rfl
    | inr st => exact ih st

theorem feeds_record {σ : Type} (conn : Conn σ) (inp : ListQueueQuickConnectsInput) :
    ∀ (rs : List ListResult) (s s' : σ) (log : List ListQueueQuickConnectsInput),
      feeds conn inp s rs s' →
      feeds (record conn) inp (s, log) rs (s', log ++ List.replicate rs.length inp) := by
  intro rs
  induction rs with
  | nil =>
    intro s s' log h
    simp only [feeds] at h
    simp [feeds, h]
  | cons r rs ih =>
    intro s s' log h
    simp only [feeds] at h
    obtain ⟨h1, h2⟩ := h
    have hrec := ih _ s' (log ++ [inp]) h2
    simp only [feeds]
    refine ⟨by simpa [record] using h1, ?_⟩
    simpa [record, List.replicate_succ] using hrec

theorem Append_nil (ds : Diagnostics) : Diagnostics.Append ds [] = ds := rfl

theorem span_colon (before after : List Char) (h : ':' ∉ before) :
    (before ++ ':' :: after).span (fun c => c != ':') = (before, ':' :: after) := by
  induction before with
  | nil => simp [List.span_eq_take_drop]
  | cons c before ih =>
    have hc : c ≠ ':' := fun hc => h (by simp [hc])
    have hb : ':' ∉ before := fun hb => h (List.mem_cons_of_mem _ hb)
    have := ih hb
    simp only [List.span_eq_take_drop, Prod.mk.injEq] at this ⊢
    simp [hc, this.1, this.2]

theorem identifier_data (plan : resourceQueueQuickConnectAssociationData) :
    (identifier plan).data
      = plan.InstanceId.ValueString.data ++ ':' :: plan.QueueId.ValueString.data := by
  simp [identifier, String.data_append]

/-! ## The claims -/

/-- C1: for every plan, when the plan converts, the response carries no earlier
error and the remote associate call succeeds, `Create` stores a state whose
identifier is the plan's instance id, a colon and the plan's queue id, and
whose instance id, queue id and quick-connect ids are those of the plan; it
adds no diagnostic. -/
theorem C1_create_stores_identifier {σ : Type} (pkg : CreatePkg) (conn : Conn σ) (s : σ)
    (plan : resourceQueueQuickConnectAssociationData) (resp : CreateResponse)
    (hresp : Diagnostics.HasError resp.Diagnostics = false)
    (hcall : (conn.AssociateQueueQuickConnectsWithContext s (associateInput plan)).1 = none) :
    (Create pkg conn s ⟨.object plan⟩ resp).1
      = { State := .object
            { ID := .value (plan.InstanceId.ValueString ++ ":" ++ plan.QueueId.ValueString)
              InstanceId := plan.InstanceId
              QueueId := plan.QueueId
              QuickConnectIds := plan.QuickConnectIds }
          Diagnostics := resp.Diagnostics } := by
  simp [Create, Stored.Get, Stored.Set, Append_nil, hresp, hcall, identifier,
    TfString.StringValue]

theorem C1_create_stores_identifier_witness :
    Diagnostics.HasError [] = false ∧
    (scriptConn.AssociateQueueQuickConnectsWithContext []
        (associateInput ⟨.unknown, .value "ins-1", .value "q-1", [some "qc-1", some "qc-2"]⟩)).1
      = none ∧
    (Create samplePkg scriptConn []
        ⟨.object ⟨.unknown, .value "ins-1", .value "q-1", [some "qc-1", some "qc-2"]⟩⟩
        ⟨.unconvertible [], []⟩).1
      = { State := .object ⟨.value "ins-1:q-1", .value "ins-1", .value "q-1",
            [some "qc-1", some "qc-2"]⟩
          Diagnostics := [] } :=
  ⟨rfl, rfl, C1_create_stores_identifier samplePkg scriptConn []
    ⟨.unknown, .value "ins-1", .value "q-1", [some "qc-1", some "qc-2"]⟩
    ⟨.unconvertible [], []⟩ rfl rfl⟩

/-- C2 (as stated, refuted): `Create` accepts an instance id that contains a
colon, here an instance ARN, and stores the identifier built from it; splitting
that identifier at its first colon gives `"arn"` and the rest, not the instance
id and the queue id. -/
theorem C2_colon_in_instance_id :
    (Create samplePkg scriptConn []
        ⟨.object ⟨.unknown, .value "arn:aws:connect:eu-west-1:111122223333:instance/ins-1",
          .value "q-1", [some "qc-1"]⟩⟩
        ⟨.unconvertible [], []⟩).1
      = { State := .object
            ⟨.value "arn:aws:connect:eu-west-1:111122223333:instance/ins-1:q-1",
              .value "arn:aws:connect:eu-west-1:111122223333:instance/ins-1",
              .value "q-1", [some "qc-1"]⟩
          Diagnostics := [] } ∧
    splitAtFirstColon "arn:aws:connect:eu-west-1:111122223333:instance/ins-1:q-1"
      = some ("arn", "aws:connect:eu-west-1:111122223333:instance/ins-1:q-1") ∧
    splitAtFirstColon "arn:aws:connect:eu-west-1:111122223333:instance/ins-1:q-1"
      ≠ some ("arn:aws:connect:eu-west-1:111122223333:instance/ins-1", "q-1") := by
  refine ⟨rfl, by decide, by decide⟩

/-- C2 (amended): for every plan whose instance id contains no colon and every
queue id, splitting the identifier `Create` builds at its first colon gives
the instance id before it and the queue id after it. -/
theorem C2_split_recovers_fields (plan : resourceQueueQuickConnectAssociationData)
    (h : ':' ∉ plan.InstanceId.ValueString.data) :
    splitAtFirstColon (identifier plan)
      = some (plan.InstanceId.ValueString, plan.QueueId.ValueString) := by
  unfold splitAtFirstColon
  rw [identifier_data, span_colon _ _ h]

theorem C2_split_recovers_fields_witness :
    ':' ∉ (TfString.value "ins-1").ValueString.data ∧
    splitAtFirstColon (identifier ⟨.unknown, .value "ins-1", .value "q-1:x", []⟩)
      = some ("ins-1", "q-1:x") :=
  ⟨by decide, C2_split_recovers_fields ⟨.unknown, .value "ins-1", .value "q-1:x", []⟩ (by decide)⟩

/-- C6: when the plan converts, the response carries no earlier error and the
remote associate call fails with error `e`, `Create` records an error
diagnostic whose detail is the text of `e`, and still stores the plan with the
identifier instance id, colon, queue id: the stored state is the one stored
when the call succeeds. -/
theorem C6_create_failure_still_stores {σ : Type} (pkg : CreatePkg) (conn : Conn σ) (s : σ)
    (plan : resourceQueueQuickConnectAssociationData) (resp : CreateResponse) (e : GoError)
    (hresp : Diagnostics.HasError resp.Diagnostics = false)
    (hcall : (conn.AssociateQueueQuickConnectsWithContext s (associateInput plan)).1 = some e) :
    (Create pkg conn s ⟨.object plan⟩ resp).1
      = { State := .object
            { ID := .value (plan.InstanceId.ValueString ++ ":" ++ plan.QueueId.ValueString)
              InstanceId := plan.InstanceId
              QueueId := plan.QueueId
              QuickConnectIds := plan.QuickConnectIds }
          Diagnostics := resp.Diagnostics ++
            [⟨.Error,
              pkg.ProblemStandardMessage pkg.Connect pkg.ErrActionCreating
                ResNamequeueQuickConnectAssociation (plan.InstanceId.String pkg.quote) e,
              e.Error⟩] } ∧
    (∀ (conn₂ : Conn σ) (s₂ : σ),
      (conn₂.AssociateQueueQuickConnectsWithContext s₂ (associateInput plan)).1 = none →
      (Create pkg conn₂ s₂ ⟨.object plan⟩ resp).1.State
        = (Create pkg conn s ⟨.object plan⟩ resp).1.State) := by
  have hnot : ∀ d : Diagnostic, d.severity = .Error → d ∉ resp.Diagnostics := by
    intro d hd hmem
    have : Diagnostics.HasError resp.Diagnostics = true := by
      simp only [Diagnostics.HasError, List.any_eq_true]
      exact ⟨d, hmem, by simp [hd]⟩
    rw [hresp] at this
    exact Bool.noConfusion this
  constructor
  · simp [Create, Stored.Get, Stored.Set, Append_nil, hresp, hcall, identifier,
      TfString.StringValue, Diagnostics.AddError, Diagnostics.Append, hnot]
  · intro conn₂ s₂ h₂
    simp [Create, Stored.Get, Stored.Set, Append_nil, hresp, hcall, h₂]

theorem C6_create_failure_still_stores_witness :
    Diagnostics.HasError [] = false ∧
    ((refusingConn ⟨"AccessDeniedException"⟩).AssociateQueueQuickConnectsWithContext ()
        (associateInput ⟨.unknown, .value "ins-1", .value "q-1", [some "qc-1"]⟩)).1
      = some ⟨"AccessDeniedException"⟩ ∧
    (Create samplePkg (refusingConn ⟨"AccessDeniedException"⟩) ()
        ⟨.object ⟨.unknown, .value "ins-1", .value "q-1", [some "qc-1"]⟩⟩
        ⟨.unconvertible [], []⟩).1
      = { State := .object ⟨.value "ins-1:q-1", .value "ins-1", .value "q-1", [some "qc-1"]⟩
          Diagnostics :=
            [⟨.Error,
              "creating connect queue Quick Connect Association (\"ins-1\"): AccessDeniedException",
              "AccessDeniedException"⟩] } :=
  ⟨rfl, rfl,
    (C6_create_failure_still_stores samplePkg (refusingConn ⟨"AccessDeniedException"⟩) ()
      ⟨.unknown, .value "ins-1", .value "q-1", [some "qc-1"]⟩ ⟨.unconvertible [], []⟩
      ⟨"AccessDeniedException"⟩ rfl rfl).1⟩

/-- C7: for every prior state with quick-connect list `S`, when the response
carries no earlier error and the listing walker returns the sequence `L`
without error, `Read` returns and writes back the state with the list
`S ++ L`, the identifier, instance id and queue id unchanged; with `S` empty
the stored list is `L`. -/
theorem C7_read_appends_listing {σ : Type} (pkg : CreatePkg) (conn : Conn σ) (fuel : Nat)
    (s s' : σ) (state : resourceQueueQuickConnectAssociationData) (resp : ReadResponse)
    (L : List (Option String))
    (hresp : Diagnostics.HasError resp.Diagnostics = false)
    (hwalk : ListAllQueueQuickConnectIdsWithContext conn fuel s (listInput state)
      = some ((L, none), s')) :
    Read pkg conn fuel s ⟨.object state⟩ resp
      = some ({ State := .object
                  { ID := state.ID
                    InstanceId := state.InstanceId
                    QueueId := state.QueueId
                    QuickConnectIds := state.QuickConnectIds ++ L }
                Diagnostics := resp.Diagnostics }, s') ∧
    (state.QuickConnectIds = [] →
      Read pkg conn fuel s ⟨.object state⟩ resp
        = some ({ State := .object
                    { ID := state.ID
                      InstanceId := state.InstanceId
                      QueueId := state.QueueId
                      QuickConnectIds := L }
                  Diagnostics := resp.Diagnostics }, s')) := by
  have key : Read pkg conn fuel s ⟨.object state⟩ resp
      = some ({ State := .object
                  { ID := state.ID
                    InstanceId := state.InstanceId
                    QueueId := state.QueueId
                    QuickConnectIds := state.QuickConnectIds ++ L }
                Diagnostics := resp.Diagnostics }, s') := by
    simp [Read, Stored.Get, Stored.Set, Append_nil, hresp, hwalk]
  refine ⟨key, fun hS => ?_⟩
  rw [key, hS, List.nil_append]

theorem C7_read_appends_listing_witness :
    Diagnostics.HasError [] = false ∧
    ListAllQueueQuickConnectIdsWithContext scriptConn 2
        [.ok (page ["qc-1"] (some "t1")), .ok (page ["qc-2"] none)]
        (listInput ⟨.value "ins-1:q-1", .value "ins-1", .value "q-1", [some "qc-0"]⟩)
      = some (([some "qc-1", some "qc-2"], none), []) ∧
    Read samplePkg scriptConn 2 [.ok (page ["qc-1"] (some "t1")), .ok (page ["qc-2"] none)]
        ⟨.object ⟨.value "ins-1:q-1", .value "ins-1", .value "q-1", [some "qc-0"]⟩⟩
        ⟨.object ⟨.value "ins-1:q-1", .value "ins-1", .value "q-1", [some "qc-0"]⟩, []⟩
      = some ({ State := .object ⟨.value "ins-1:q-1", .value "ins-1", .value "q-1",
                  [some "qc-0", some "qc-1", some "qc-2"]⟩
                Diagnostics := [] }, []) :=
  ⟨rfl, rfl,
    (C7_read_appends_listing samplePkg scriptConn 2
      [.ok (page ["qc-1"] (some "t1")), .ok (page ["qc-2"] none)] []
      ⟨.value "ins-1:q-1", .value "ins-1", .value "q-1", [some "qc-0"]⟩
      ⟨.object ⟨.value "ins-1:q-1", .value "ins-1", .value "q-1", [some "qc-0"]⟩, []⟩
      [some "qc-1", some "qc-2"] rfl rfl).1⟩

/-- C8: for every prior state, when the response carries no earlier error and
the listing walker returns the error `e`, `Read` returns early after recording
one error diagnostic with the text of `e` as detail: the response state after
`Read` is the response state before it. -/
theorem C8_read_error_keeps_state {σ : Type} (pkg : CreatePkg) (conn : Conn σ) (fuel : Nat)
    (s s' : σ) (state : resourceQueueQuickConnectAssociationData) (resp : ReadResponse)
    (ids : List (Option String)) (e : GoError)
    (hresp : Diagnostics.HasError resp.Diagnostics = false)
    (hwalk : ListAllQueueQuickConnectIdsWithContext conn fuel s (listInput state)
      = some ((ids, some e), s')) :
    Read pkg conn fuel s ⟨.object state⟩ resp
      = some ({ State := resp.State
                Diagnostics := resp.Diagnostics ++
                  [⟨.Error,
                    pkg.ProblemStandardMessage pkg.Connect pkg.ErrActionReading
                      ResNamequeueQuickConnectAssociation (state.InstanceId.String pkg.quote) e,
                    e.Error⟩] }, s') := by
  have hnot : ∀ d : Diagnostic, d.severity = .Error → d ∉ resp.Diagnostics := by
    intro d hd hmem
    have : Diagnostics.HasError resp.Diagnostics = true := by
      simp only [Diagnostics.HasError, List.any_eq_true]
      exact ⟨d, hmem, by simp [hd]⟩
    rw [hresp] at this
    exact Bool.noConfusion this
  simp [Read, Stored.Get, Append_nil, hresp, hwalk, Diagnostics.AddError,
    Diagnostics.Append, hnot]

theorem C8_read_error_keeps_state_witness :
    Diagnostics.HasError [] = false ∧
    ListAllQueueQuickConnectIdsWithContext scriptConn 2
        [.ok (page ["qc-1"] (some "t1")), .error ⟨"ThrottlingException"⟩]
        (listInput ⟨.value "ins-1:q-1", .value "ins-1", .value "q-1", [some "qc-0"]⟩)
      = some (([], some ⟨"ThrottlingException"⟩), []) ∧
    Read samplePkg scriptConn 2
        [.ok (page ["qc-1"] (some "t1")), .error ⟨"ThrottlingException"⟩]
        ⟨.object ⟨.value "ins-1:q-1", .value "ins-1", .value "q-1", [some "qc-0"]⟩⟩
        ⟨.object ⟨.value "ins-1:q-1", .value "ins-1", .value "q-1", [some "qc-0"]⟩, []⟩
      = some ({ State := .object ⟨.value "ins-1:q-1", .value "ins-1", .value "q-1",
                  [some "qc-0"]⟩
                Diagnostics :=
                  [⟨.Error,
                    "reading connect queue Quick Connect Association (\"ins-1\"): ThrottlingException",
                    "ThrottlingException"⟩] }, []) :=
  ⟨rfl, rfl,
    C8_read_error_keeps_state samplePkg scriptConn 2
      [.ok (page ["qc-1"] (some "t1")), .error ⟨"ThrottlingException"⟩] []
      ⟨.value "ins-1:q-1", .value "ins-1", .value "q-1", [some "qc-0"]⟩
      ⟨.object ⟨.value "ins-1:q-1", .value "ins-1", .value "q-1", [some "qc-0"]⟩, []⟩
      [] ⟨"ThrottlingException"⟩ rfl rfl⟩

/-- C10: `Read` is not idempotent on an unchanged remote set. For every prior
list `S` and non-empty listing `L` that the walker returns on both calls,
the first `Read` stores `S ++ L` and a second `Read` fed that state stores
`S ++ L ++ L`, which differs from `S ++ L` and holds every listed id at least
twice. -/
theorem C10_read_twice_duplicates {σ : Type} (pkg : CreatePkg) (conn : Conn σ)
    (fuel₁ fuel₂ : Nat) (s s₁ s₂ : σ) (state : resourceQueueQuickConnectAssociationData)
    (resp₁ resp₂ : ReadResponse) (L : List (Option String))
    (hresp₁ : Diagnostics.HasError resp₁.Diagnostics = false)
    (hresp₂ : Diagnostics.HasError resp₂.Diagnostics = false)
    (hwalk₁ : ListAllQueueQuickConnectIdsWithContext conn fuel₁ s (listInput state)
      = some ((L, none), s₁))
    (hwalk₂ : ListAllQueueQuickConnectIdsWithContext conn fuel₂ s₁ (listInput state)
      = some ((L, none), s₂))
    (hL : L ≠ []) :
    ∃ first : ReadResponse,
      Read pkg conn fuel₁ s ⟨.object state⟩ resp₁ = some (first, s₁) ∧
      first.State = .object { state with QuickConnectIds := state.QuickConnectIds ++ L } ∧
      Read pkg conn fuel₂ s₁ ⟨first.State⟩ resp₂
        = some ({ State := .object
                    { state with QuickConnectIds := state.QuickConnectIds ++ L ++ L }
                  Diagnostics := resp₂.Diagnostics }, s₂) ∧
      state.QuickConnectIds ++ L ++ L ≠ state.QuickConnectIds ++ L ∧
      ∀ x ∈ L, 2 ≤ (state.QuickConnectIds ++ L ++ L).count x := by
  refine ⟨{ State := .object { state with QuickConnectIds := state.QuickConnectIds ++ L }
            Diagnostics := resp₁.Diagnostics }, ?_, rfl, ?_, ?_, ?_⟩
  · simp [Read, Stored.Get, Stored.Set, Append_nil, hresp₁, hwalk₁]
  · have hin : listInput { state with QuickConnectIds := state.QuickConnectIds ++ L }
        = listInput state := rfl
    simp [Read, Stored.Get, Stored.Set, Append_nil, hresp₂, hin, hwalk₂]
  · intro h
    have hlen := congrArg List.length h
    simp only [List.length_append] at hlen
    have : L.length = 0 := by omega
    exact hL (List.length_eq_zero.mp this)
  · intro x hx
    have h1 : 1 ≤ L.count x := List.count_pos_iff.mpr hx
    simp only [List.count_append]
    omega

theorem C10_read_twice_duplicates_witness :
    ∃ first : ReadResponse,
      Read samplePkg scriptConn 1 [.ok (page ["qc-1"] none), .ok (page ["qc-1"] none)]
          ⟨.object ⟨.value "ins-1:q-1", .value "ins-1", .value "q-1", []⟩⟩
          ⟨.object ⟨.value "ins-1:q-1", .value "ins-1", .value "q-1", []⟩, []⟩
        = some (first, [.ok (page ["qc-1"] none)]) ∧
      first.State = .object ⟨.value "ins-1:q-1", .value "ins-1", .value "q-1", [some "qc-1"]⟩ ∧
      Read samplePkg scriptConn 1 [.ok (page ["qc-1"] none)] ⟨first.State⟩
          ⟨.object ⟨.value "ins-1:q-1", .value "ins-1", .value "q-1", [some "qc-1"]⟩, []⟩
        = some ({ State := .object ⟨.value "ins-1:q-1", .value "ins-1", .value "q-1",
                    [some "qc-1", some "qc-1"]⟩
                  Diagnostics := [] }, []) ∧
      ([] : List (Option String)) ++ [some "qc-1"] ++ [some "qc-1"] ≠ [] ++ [some "qc-1"] ∧
      ∀ x ∈ [some "qc-1"], 2 ≤ (([] : List (Option String)) ++ [some "qc-1"] ++ [some "qc-1"]).count x :=
  C10_read_twice_duplicates samplePkg scriptConn 1 1
    [.ok (page ["qc-1"] none), .ok (page ["qc-1"] none)] [.ok (page ["qc-1"] none)] []
    ⟨.value "ins-1:q-1", .value "ins-1", .value "q-1", []⟩
    ⟨.object ⟨.value "ins-1:q-1", .value "ins-1", .value "q-1", []⟩, []⟩
    ⟨.object ⟨.value "ins-1:q-1", .value "ins-1", .value "q-1", [some "qc-1"]⟩, []⟩
    [some "qc-1"] rfl rfl rfl rfl (by decide)

/-- C5: if, after any number of successful pages that carry a continuation
token, a listing call fails with error `e`, the walker returns `e` with an
empty sequence (not the ids of the earlier pages) and leaves the remote in the
state right after the failing call; the request log shows one call per page
served plus the failing one and none after it, so exactly one when the first
call fails. -/
theorem C5_listing_error_aborts {σ : Type} (conn : Conn σ)
    (inp : ListQueueQuickConnectsInput) (e : GoError)
    (pages : List ListQueueQuickConnectsOutput) (s s' : σ) (fuel : Nat)
    (htok : ∀ p ∈ pages, p.NextToken ≠ none)
    (hfeeds : feeds conn inp s (pages.map Except.ok ++ [Except.error e]) s')
    (hfuel : pages.length < fuel) :
    ListAllQueueQuickConnectIdsWithContext conn fuel s inp = some (([], some e), s') ∧
    ListAllQueueQuickConnectIdsWithContext (record conn) fuel (s, []) inp
      = some (([], some e), (s', List.replicate (pages.length + 1) inp)) := by
  constructor
  · exact walkLoop_fail conn inp e pages htok s s' [] fuel hfeeds hfuel
  · have h := feeds_record conn inp _ s s' [] hfeeds
    have := walkLoop_fail (record conn) inp e pages htok (s, []) _ [] fuel h hfuel
    simpa [ListAllQueueQuickConnectIdsWithContext] using this

theorem C5_listing_error_aborts_witness :
    (∀ p ∈ [page ["qc-1"] (some "t1")], p.NextToken ≠ none) ∧
    feeds scriptConn (listInput ⟨.null, .value "ins-1", .value "q-1", []⟩)
      [.ok (page ["qc-1"] (some "t1")), .error ⟨"ThrottlingException"⟩, .ok (page ["qc-2"] none)]
      ([page ["qc-1"] (some "t1")].map Except.ok ++ [Except.error ⟨"ThrottlingException"⟩])
      [.ok (page ["qc-2"] none)] ∧
    [page ["qc-1"] (some "t1")].length < 5 ∧
    ListAllQueueQuickConnectIdsWithContext scriptConn 5
        [.ok (page ["qc-1"] (some "t1")), .error ⟨"ThrottlingException"⟩, .ok (page ["qc-2"] none)]
        (listInput ⟨.null, .value "ins-1", .value "q-1", []⟩)
      = some (([], some ⟨"ThrottlingException"⟩), [.ok (page ["qc-2"] none)]) :=
  ⟨by decide, ⟨rfl, rfl, rfl⟩, by decide,
    (C5_listing_error_aborts scriptConn (listInput ⟨.null, .value "ins-1", .value "q-1", []⟩)
      ⟨"ThrottlingException"⟩ [page ["qc-1"] (some "t1")]
      [.ok (page ["qc-1"] (some "t1")), .error ⟨"ThrottlingException"⟩, .ok (page ["qc-2"] none)]
      [.ok (page ["qc-2"] none)] 5 (by decide) ⟨rfl, rfl, rfl⟩ (by decide)).1⟩

/-- C4 (as stated, refuted): a response whose continuation token is the empty
string does not stop the walk. Served that response and then a page without
token, the walker is still running after one iteration, makes a second call and
returns the ids of both responses; it does not return the ids of the first
response with the second left unserved. -/
theorem C4_empty_token_continues :
    ListAllQueueQuickConnectIdsWithContext scriptConn 1
        [.ok (page ["qc-1"] (some "")), .ok (page ["qc-2"] none)]
        (listInput ⟨.null, .value "ins-1", .value "q-1", []⟩)
      = none ∧
    ListAllQueueQuickConnectIdsWithContext (record scriptConn) 2
        ([.ok (page ["qc-1"] (some "")), .ok (page ["qc-2"] none)], [])
        (listInput ⟨.null, .value "ins-1", .value "q-1", []⟩)
      = some (([some "qc-1", some "qc-2"], none),
          ([], [listInput ⟨.null, .value "ins-1", .value "q-1", []⟩,
                listInput ⟨.null, .value "ins-1", .value "q-1", []⟩])) ∧
    ListAllQueueQuickConnectIdsWithContext scriptConn 2
        [.ok (page ["qc-1"] (some "")), .ok (page ["qc-2"] none)]
        (listInput ⟨.null, .value "ins-1", .value "q-1", []⟩)
      ≠ some (([some "qc-1"], none), [.ok (page ["qc-2"] none)]) := by
  refine ⟨rfl, rfl, ?_⟩
  have h : ListAllQueueQuickConnectIdsWithContext scriptConn 2
        [.ok (page ["qc-1"] (some "")), .ok (page ["qc-2"] none)]
        (listInput ⟨.null, .value "ins-1", .value "q-1", []⟩)
      = some (([some "qc-1", some "qc-2"], none), []) := rfl
  rw [h]
  simp

/-- C4 (amended): the walker stops at the first successful response whose
continuation token is nil; a token that is present, the empty string included,
continues the walk. For every run of responses in which a page without token
follows pages that each carry a token, the walker returns the ids of all these
pages, that of the last included, and leaves the remote in the state right
after that response: the request log shows one call per page and none after. -/
theorem C4_stops_at_nil_token {σ : Type} (conn : Conn σ)
    (inp : ListQueueQuickConnectsInput) (last : ListQueueQuickConnectsOutput)
    (pages : List ListQueueQuickConnectsOutput) (s s' : σ) (fuel : Nat)
    (hlast : last.NextToken = none)
    (htok : ∀ p ∈ pages, p.NextToken ≠ none)
    (hfeeds : feeds conn inp s (pages.map Except.ok ++ [Except.ok last]) s')
    (hfuel : pages.length < fuel) :
    ListAllQueueQuickConnectIdsWithContext conn fuel s inp
      = some ((((pages ++ [last]).map pageIds).flatten, none), s') ∧
    ListAllQueueQuickConnectIdsWithContext (record conn) fuel (s, []) inp
      = some ((((pages ++ [last]).map pageIds).flatten, none),
          (s', List.replicate (pages.length + 1) inp)) := by
  constructor
  · have := walkLoop_pages conn inp last hlast pages htok s s' [] fuel hfeeds hfuel
    simpa [ListAllQueueQuickConnectIdsWithContext] using this
  · have h := feeds_record conn inp _ s s' [] hfeeds
    have := walkLoop_pages (record conn) inp last hlast pages htok (s, []) _ [] fuel h hfuel
    simpa [ListAllQueueQuickConnectIdsWithContext] using this

theorem C4_stops_at_nil_token_witness :
    (page ["qc-2"] none).NextToken = none ∧
    (∀ p ∈ [page ["qc-1"] (some "")], p.NextToken ≠ none) ∧
    feeds scriptConn (listInput ⟨.null, .value "ins-1", .value "q-1", []⟩)
      [.ok (page ["qc-1"] (some "")), .ok (page ["qc-2"] none), .ok (page ["qc-3"] none)]
      ([page ["qc-1"] (some "")].map Except.ok ++ [Except.ok (page ["qc-2"] none)])
      [.ok (page ["qc-3"] none)] ∧
    [page ["qc-1"] (some "")].length < 2 ∧
    ListAllQueueQuickConnectIdsWithContext scriptConn 2
        [.ok (page ["qc-1"] (some "")), .ok (page ["qc-2"] none), .ok (page ["qc-3"] none)]
        (listInput ⟨.null, .value "ins-1", .value "q-1", []⟩)
      = some (([some "qc-1", some "qc-2"], none), [.ok (page ["qc-3"] none)]) :=
  ⟨rfl, by decide, ⟨rfl, rfl, rfl⟩, by decide,
    (C4_stops_at_nil_token scriptConn (listInput ⟨.null, .value "ins-1", .value "q-1", []⟩)
      (page ["qc-2"] none) [page ["qc-1"] (some "")]
      [.ok (page ["qc-1"] (some "")), .ok (page ["qc-2"] none), .ok (page ["qc-3"] none)]
      [.ok (page ["qc-3"] none)] 2 rfl (by decide) ⟨rfl, rfl, rfl⟩ (by decide)).1⟩

/-- C3 (the code at the failing input): against a remote that holds the
two-page listing `["qc-1"]` (continuation token `"t1"`) then `["qc-2"]` (no
token) and serves the page the request's token asks for, the walker called
with the request `Read` builds never returns, whatever the number of
iterations allowed; every call it has made by then carries the request
unchanged, so the remote answers each with the first page. -/
theorem C3_two_page_listing_never_returns :
    (∀ fuel : Nat,
      ListAllQueueQuickConnectIdsWithContext
          (pagedConn [(none, page ["qc-1"] (some "t1")), (some "t1", page ["qc-2"] none)])
          fuel () (listInput ⟨.value "ins-1:q-1", .value "ins-1", .value "q-1", []⟩)
        = none) ∧
    (∀ n : Nat,
      walkRun
          (record (pagedConn [(none, page ["qc-1"] (some "t1")), (some "t1", page ["qc-2"] none)]))
          (listInput ⟨.value "ins-1:q-1", .value "ins-1", .value "q-1", []⟩) n ⟨((), []), []⟩
        = .inr ⟨((), List.replicate n
                  (listInput ⟨.value "ins-1:q-1", .value "ins-1", .value "q-1", []⟩)),
                List.replicate n (some "qc-1")⟩) := by
  constructor
  · intro fuel
    exact walkLoop_stuck _ _ (fun _ => ⟨page ["qc-1"] (some "t1"), rfl, by decide⟩) fuel _
  · intro n
    have key : ∀ (n : Nat) (log : List ListQueueQuickConnectsInput) (acc : List (Option String)),
        walkRun
          (record (pagedConn [(none, page ["qc-1"] (some "t1")), (some "t1", page ["qc-2"] none)]))
          (listInput ⟨.value "ins-1:q-1", .value "ins-1", .value "q-1", []⟩) n ⟨((), log), acc⟩
        = .inr ⟨((), log ++ List.replicate n
                  (listInput ⟨.value "ins-1:q-1", .value "ins-1", .value "q-1", []⟩)),
                acc ++ List.replicate n (some "qc-1")⟩ := by
      intro n
      induction n with
      | zero => intro log acc; simp [walkRun]
      | succ n ih =>
        intro log acc
        have hi := walkIter_more
          (record (pagedConn [(none, page ["qc-1"] (some "t1")), (some "t1", page ["qc-2"] none)]))
          (listInput ⟨.value "ins-1:q-1", .value "ins-1", .value "q-1", []⟩) ⟨((), log), acc⟩
          (page ["qc-1"] (some "t1")) rfl (by decide)
        simp only [walkRun, hi]
        have := ih (log ++ [listInput ⟨.value "ins-1:q-1", .value "ins-1", .value "q-1", []⟩])
          (acc ++ [some "qc-1"])
        simpa [record, pagedConn, statelessConn, pageIds, page, List.replicate_succ] using this
    simpa using key n [] []

/-- C9: every listing call the walker makes carries the request it was given,
unchanged: against any remote, the request log after any number of iterations
is that request repeated, once per call. Hence against a remote whose answer
`f` depends only on the request: when the answer is a response without
continuation token the walker returns that page's ids after one call; when it
is a response with a token the walker never returns; so, for a response, the
walker returns iff the response has no token. (When the answer is an error the
walker returns it after one call.) -/
theorem C9_same_request_every_call (f : ListQueueQuickConnectsInput → ListResult)
    (inp : ListQueueQuickConnectsInput) :
    (∀ (σ : Type) (conn : Conn σ) (s : σ) (n : Nat),
      ∃ k, k ≤ n ∧
        loggedCalls (walkRun (record conn) inp n ⟨(s, []), []⟩) = List.replicate k inp) ∧
    (∀ response, f inp = .ok response → response.NextToken = none →
      ∀ fuel : Nat,
        ListAllQueueQuickConnectIdsWithContext (record (statelessConn f)) (fuel + 1) ((), []) inp
          = some ((pageIds response, none), ((), [inp]))) ∧
    (∀ response, f inp = .ok response → response.NextToken ≠ none →
      ∀ fuel : Nat, ListAllQueueQuickConnectIdsWithContext (statelessConn f) fuel () inp = none) ∧
    (∀ response, f inp = .ok response →
      ((∃ fuel res, ListAllQueueQuickConnectIdsWithContext (statelessConn f) fuel () inp = some res)
        ↔ response.NextToken = none)) ∧
    (∀ e, f inp = .error e →
      ∀ fuel : Nat,
        ListAllQueueQuickConnectIdsWithContext (record (statelessConn f)) (fuel + 1) ((), []) inp
          = some (([], some e), ((), [inp]))) := by
  have stuck : ∀ response, f inp = .ok response → response.NextToken ≠ none →
      ∀ fuel : Nat,
        ListAllQueueQuickConnectIdsWithContext (statelessConn f) fuel () inp = none := by
    intro response hf htok fuel
    exact walkLoop_stuck (statelessConn f) inp (fun _ => ⟨response, hf, htok⟩) fuel _
  refine ⟨?_, ?_, stuck, ?_, ?_⟩
  · intro σ conn s n
    simpa using walkRun_logged conn inp n ⟨(s, []), []⟩
  · intro response hf htok fuel
    have hi := walkIter_last (record (statelessConn f)) inp ⟨((), []), []⟩ response
      (by simpa [record, statelessConn] using hf) htok
    simp only [ListAllQueueQuickConnectIdsWithContext, walkLoop, hi]
    simp [record, statelessConn]
  · intro response hf
    constructor
    · rintro ⟨fuel, res, hres⟩
      by_contra htok
      rw [stuck response hf htok fuel] at hres
      exact Option.noConfusion hres
    · intro htok
      have hi := walkIter_last (statelessConn f) inp ⟨(), []⟩ response
        (by simpa [statelessConn] using hf) htok
      refine ⟨1, ((pageIds response, none), ()), ?_⟩
      simp only [ListAllQueueQuickConnectIdsWithContext, walkLoop, hi]
      simp
  · intro e hf fuel
    have hi := walkIter_error (record (statelessConn f)) inp ⟨((), []), []⟩ e
      (by simpa [record, statelessConn] using hf)
    simp only [ListAllQueueQuickConnectIdsWithContext, walkLoop, hi]
    simp [record, statelessConn]

theorem C9_same_request_every_call_witness :
    pagedAnswer [(none, page ["qc-1"] (some "t1")), (some "t1", page ["qc-2"] none)]
        (listInput ⟨.null, .value "ins-1", .value "q-1", []⟩)
      = .ok (page ["qc-1"] (some "t1")) ∧
    (page ["qc-1"] (some "t1")).NextToken ≠ none ∧
    ListAllQueueQuickConnectIdsWithContext
        (statelessConn
          (pagedAnswer [(none, page ["qc-1"] (some "t1")), (some "t1", page ["qc-2"] none)]))
        7 () (listInput ⟨.null, .value "ins-1", .value "q-1", []⟩)
      = none :=
  ⟨rfl, by decide,
    (C9_same_request_every_call
      (pagedAnswer [(none, page ["qc-1"] (some "t1")), (some "t1", page ["qc-2"] none)])
      (listInput ⟨.null, .value "ins-1", .value "q-1", []⟩)).2.2.1
      (page ["qc-1"] (some "t1")) rfl (by decide) 7⟩

end Connect
